import Mathlib

set_option autoImplicit false
set_option maxRecDepth 4000

namespace Wsdl2Api

/-!
Shallow embedding of the wsdl2api repository (github.com/thdev01/wsdl2api).

Strings are modelled as `List Char` (`Str`), mirroring Go's byte strings for the
ASCII inputs the claims are about.  Each definition is translated from a named
Go function; the source file and function are cited in the doc comment.
-/

abbrev Str := List Char

def str (s : String) : Str := s.toList

/-- Go `unicode.IsSpace` restricted to the ASCII whitespace characters
(space, tab, newline, vertical tab, form feed, carriage return).  Non-ASCII
Unicode whitespace is outside the model. -/
def isGoSpace (c : Char) : Bool :=
  c == ' ' || c == '\t' || c == '\n' || c == '\x0b' || c == '\x0c' || c == '\r'

/-- Go `strings.TrimSpace`: drop whitespace from both ends. -/
def trimSpace (s : Str) : Str :=
  ((s.dropWhile isGoSpace).reverse.dropWhile isGoSpace).reverse

/-- The namespace-prefix strip used all over the repository:
`if idx := strings.LastIndex(s, ":"); idx != -1 { s = s[idx+1:] }`,
i.e. keep the part after the last colon. -/
def localName (s : Str) : Str :=
  (s.reverse.takeWhile (fun c => c != ':')).reverse

/-- The separator set of `toPascalCase` (pkg/generator/generator.go:259 and
pkg/typescript/generator.go:333): `_`, `-`, `.` and space. -/
def isSepChar (c : Char) : Bool :=
  c == '_' || c == '-' || c == '.' || c == ' '

/-- Accumulator worker for `strings.FieldsFunc` with the separator set
`isSepChar`: splits into the maximal runs of non-separator characters. -/
def fieldsAux : Str → Str → List Str
  | acc, [] => if acc = [] then [] else [acc.reverse]
  | acc, c :: cs =>
    if isSepChar c then
      if acc = [] then fieldsAux [] cs else acc.reverse :: fieldsAux [] cs
    else
      fieldsAux (c :: acc) cs

/-- Go `strings.FieldsFunc(s, isSepChar)`. -/
def fieldsFunc (s : Str) : List Str := fieldsAux [] s

/-- Go `strings.ToUpper(string(word[0])) + word[1:]` (ASCII): upper-case the first
character of a word.  `Char.toUpper` agrees with Go's `strings.ToUpper` on
ASCII. -/
def upperFirst : Str → Str
  | [] => []
  | c :: cs => Char.toUpper c :: cs

/-- Go `toPascalCase` of the Go emitter (pkg/generator/generator.go:247-270):
trim, return empty input unchanged, strip the namespace prefix, split on
`_ - . <space>`, capitalize the first letter of each word, join. -/
def goToPascalCase (s : Str) : Str :=
  let t := trimSpace s
  if t = [] then t
  else ((fieldsFunc (localName t)).map upperFirst).flatten

/-- Word transform of the TypeScript emitter's `toPascalCase`
(pkg/typescript/generator.go:339): `strings.ToUpper(string(word[0])) +
strings.ToLower(word[1:])`. -/
def tsWord : Str → Str
  | [] => []
  | c :: cs => Char.toUpper c :: cs.map Char.toLower

/-- Go `toPascalCase` of the TypeScript emitter (pkg/typescript/generator.go:326-344):
like the Go one but with no namespace-prefix strip and with the tail of each
word lower-cased. -/
def tsToPascalCase (s : Str) : Str :=
  let t := trimSpace s
  if t = [] then t
  else ((fieldsFunc t).map tsWord).flatten

/-! ## Type projection (pkg/generator/generator.go, pkg/generator complex types, exporter) -/

/-- The fixed XSD→Go primitive table of `mapXSDTypeToGo`
(pkg/generator/generator.go:278-294). -/
def goTypeMap : List (Str × Str) :=
  [(str "string", str "string"),
   (str "int", str "int"),
   (str "integer", str "int"),
   (str "long", str "int64"),
   (str "short", str "int16"),
   (str "byte", str "byte"),
   (str "boolean", str "bool"),
   (str "float", str "float32"),
   (str "double", str "float64"),
   (str "decimal", str "float64"),
   (str "dateTime", str "string"),
   (str "date", str "string"),
   (str "time", str "string"),
   (str "base64Binary", str "[]byte"),
   (str "hexBinary", str "[]byte")]

/-- Go `mapXSDTypeToGo` (pkg/generator/generator.go:272-302): strip the namespace
prefix, look the local name up in the primitive table, otherwise fall back to
`toPascalCase` (custom-type assumption). -/
def mapXSDTypeToGo (xsdType : Str) : Str :=
  let t := localName xsdType
  match goTypeMap.lookup t with
  | some g => g
  | none => goToPascalCase t

/-- An OpenAPI schema as far as `xsdTypeToOpenAPISchema` produces one:
only the `Type` and `Format` fields are ever set by the table or the
fallback (the exporter's other fields stay empty there). -/
structure OpenAPISchema where
  schemaType : Str := []
  format : Str := []
deriving DecidableEq

/-- The XSD→OpenAPI table of `xsdTypeToOpenAPISchema` (pkg/exporter:235-248).
Note it has only 12 entries: `byte`, `base64Binary` and `hexBinary` are
absent. -/
def openAPITypeMap : List (Str × OpenAPISchema) :=
  [(str "string", { schemaType := str "string" }),
   (str "int", { schemaType := str "integer", format := str "int32" }),
   (str "integer", { schemaType := str "integer", format := str "int32" }),
   (str "long", { schemaType := str "integer", format := str "int64" }),
   (str "short", { schemaType := str "integer", format := str "int32" }),
   (str "boolean", { schemaType := str "boolean" }),
   (str "float", { schemaType := str "number", format := str "float" }),
   (str "double", { schemaType := str "number", format := str "double" }),
   (str "decimal", { schemaType := str "number" }),
   (str "dateTime", { schemaType := str "string", format := str "date-time" }),
   (str "date", { schemaType := str "string", format := str "date" }),
   (str "time", { schemaType := str "string", format := str "time" })]

/-- Go `xsdTypeToOpenAPISchema` (pkg/exporter:229-256): strip the namespace
prefix, look the local name up in the table, otherwise default to a plain
string schema (the unknown-type fallback). -/
def xsdTypeToOpenAPISchema (xsdType : Str) : OpenAPISchema :=
  let t := localName xsdType
  match openAPITypeMap.lookup t with
  | some s => s
  | none => { schemaType := str "string" }

/-- The 15-name primitive table of the specification (shared across targets):
string, int, integer, long, short, byte, boolean, float, double, decimal,
dateTime, date, time, base64Binary, hexBinary. -/
def primitiveTable : List Str :=
  [str "string", str "int", str "integer", str "long", str "short", str "byte",
   str "boolean", str "float", str "double", str "decimal", str "dateTime",
   str "date", str "time", str "base64Binary", str "hexBinary"]

/-- Go `models.Element` (internal/models, Go field names `Name`, `Type`,
`MinOccurs`, `MaxOccurs`, `Nillable`; `Type` is a Lean keyword so the field is
called `typeRef`). -/
structure Element where
  name : Str
  typeRef : Str
  minOccurs : Str
  maxOccurs : Str
  nillable : Bool
deriving DecidableEq

/-- Go `ComplexTypeGenerator.getFieldType` (complex type generator, part_007:61-83):
base type from `mapXSDTypeToGo`; array wrap when `MaxOccurs == "unbounded"` or
`MaxOccurs` is neither empty nor `"1"`; pointer wrap for `MinOccurs == "0"`
only when the type is not already an array (and has no `*`); pointer wrap for
nillable only when not already a pointer or array. -/
def getFieldType (elem : Element) : Str :=
  let baseType0 := mapXSDTypeToGo elem.typeRef
  let baseType1 :=
    if elem.maxOccurs == str "unbounded"
        || (elem.maxOccurs != [] && elem.maxOccurs != str "1") then
      str "[]" ++ baseType0
    else baseType0
  let baseType2 :=
    if elem.minOccurs == str "0" && !(List.isPrefixOf (str "[]") baseType1) then
      if !(baseType1.contains '*') then '*' :: baseType1 else baseType1
    else baseType1
  if elem.nillable && !(List.isPrefixOf (str "*") baseType2)
      && !(List.isPrefixOf (str "[]") baseType2) then
    '*' :: baseType2
  else baseType2

/-- Decimal reading of a multiplicity string: `some n` when the string is a
nonempty run of digits with value `n`, else `none`.  Used to state
"maxOccurs greater than 1" for concrete numeral strings. -/
def strToNat? (s : Str) : Option Nat :=
  if s ≠ [] ∧ s.all Char.isDigit then
    some (s.foldl (fun a c => a * 10 + (c.toNat - 48)) 0)
  else none

/-! ## IR model and `convertToModel` (pkg/parser/parser.go, internal/models) -/

/-- Go `models.Port`. -/
structure Port where
  name : Str
  binding : Str
  address : Str

/-- Go `models.Service`. -/
structure Service where
  name : Str
  ports : List Port

/-- Go `models.BindingOperation` (the `Input`/`Output` binding messages are never
read by the code under study and are omitted). -/
structure BindingOperation where
  name : Str
  soapAction : Str

/-- Go `models.Binding` (Go field `Type` → `typeRef`). -/
structure Binding where
  name : Str
  typeRef : Str
  operations : List BindingOperation

/-- Go `models.Part`. -/
structure Part where
  name : Str
  element : Str
  typeRef : Str

/-- Go `models.Message`. -/
structure Message where
  name : Str
  parts : List Part

/-- Go `models.Operation`. -/
structure Operation where
  name : Str
  documentation : Str
  input : Message
  output : Message

/-- Go `models.PortType`. -/
structure PortType where
  name : Str
  operations : List Operation

/-- Go `models.Type` (the complex-type entry of the IR; `Type` is a Lean keyword
so the structure is called `WsdlType`). -/
structure WsdlType where
  name : Str
  elements : List Element

/-- Go `models.Definitions` — the root IR (`ServiceDefinition` of the spec). -/
structure Definitions where
  name : Str
  targetNamespace : Str
  services : List Service
  bindings : List Binding
  portTypes : List PortType
  messages : List Message
  types : List WsdlType

/-- Go `rawXSDElement` (pkg/parser/parser.go:229). -/
structure RawXSDElement where
  name : Str
  typeRef : Str

/-- Go `rawSchema` (pkg/parser/parser.go:224). -/
structure RawSchema where
  targetNamespace : Str
  element : List RawXSDElement

/-- Go `rawTypes` (pkg/parser/parser.go:220): the parsed `types` section of the
raw WSDL model. -/
structure RawTypes where
  schema : List RawSchema

/-- Go `rawAddress`/`rawPort`/`rawService` (pkg/parser/parser.go:153-166). -/
structure RawPort where
  name : Str
  binding : Str
  addressLocation : Str

structure RawService where
  name : Str
  port : List RawPort

/-- Go `rawSoapOperation`/`rawBindOperation`/`rawBinding` (parser.go:168-183). -/
structure RawBindOperation where
  name : Str
  soapAction : Str

structure RawBinding where
  name : Str
  typeRef : Str
  operation : List RawBindOperation

/-- Go `rawOperationMessage`/`rawOperation`/`rawPortType` (parser.go:193-207). -/
structure RawOperation where
  name : Str
  documentation : Str
  inputMessage : Str
  outputMessage : Str

structure RawPortType where
  name : Str
  operation : List RawOperation

/-- Go `rawPart`/`rawMessage` (parser.go:209-218). -/
structure RawPart where
  name : Str
  element : Str
  typeRef : Str

structure RawMessage where
  name : Str
  part : List RawPart

/-- Go `rawDefinitions` (pkg/parser/parser.go:142-151): the raw XML model,
including the `Types` section. -/
structure RawDefinitions where
  name : Str
  targetNamespace : Str
  service : List RawService
  binding : List RawBinding
  portType : List RawPortType
  message : List RawMessage
  types : RawTypes

/-- Go `Parser.convertToModel` (pkg/parser/parser.go:56-139): converts the raw
XML model into `models.Definitions`.  The Go code builds the struct literal
without ever assigning `Types`, so that field keeps its zero value (`nil`),
modelled as `[]`; `raw.Types` is discarded. -/
def convertToModel (raw : RawDefinitions) : Definitions :=
  { name := raw.name
    targetNamespace := raw.targetNamespace
    services := raw.service.map (fun svc =>
      { name := svc.name
        ports := svc.port.map (fun p =>
          { name := p.name, binding := p.binding, address := p.addressLocation }) })
    bindings := raw.binding.map (fun b =>
      { name := b.name
        typeRef := b.typeRef
        operations := b.operation.map (fun op =>
          { name := op.name, soapAction := op.soapAction }) })
    portTypes := raw.portType.map (fun pt =>
      { name := pt.name
        operations := pt.operation.map (fun op =>
          { name := op.name
            documentation := op.documentation
            input := { name := op.inputMessage, parts := [] }
            output := { name := op.outputMessage, parts := [] } }) })
    messages := raw.message.map (fun msg =>
      { name := msg.name
        parts := msg.part.map (fun p =>
          { name := p.name, element := p.element, typeRef := p.typeRef }) })
    types := [] }

/-! ## SOAP envelope codec (pkg/server/server.go, pkg/generator/client_wssecurity.go) -/

/-- Go `Server.buildSOAPEnvelope` (pkg/server/server.go:284-313): the parameter
XML, one `<k>v</k>` chunk per map entry, interpolated with `fmt.Sprintf`
— no XML escaping anywhere.  Go map iteration order is modelled by the
association-list order. -/
def paramsXML : List (Str × Str) → Str
  | [] => []
  | (k, v) :: rest => ('<' :: k ++ '>' :: v ++ str "</" ++ k ++ ['>']) ++ paramsXML rest

/-- The verbatim segments of the SOAP 1.1 `fmt.Sprintf` template of
`buildSOAPEnvelope` (pkg/server/server.go:307-312), split at the four
interpolation points. -/
def soap11Pre : Str :=
  str "<?xml version=\"1.0\" encoding=\"utf-8\"?>\n<soap:Envelope xmlns:soap=\"http://schemas.xmlsoap.org/soap/envelope/\" xmlns:tns=\""

def soap11Mid : Str := str "\">\n  <soap:Body>\n    <tns:"

def soap11Close : Str := str "</tns:"

def soap11Suf : Str := str ">\n  </soap:Body>\n</soap:Envelope>"

/-- The verbatim segments of the SOAP 1.2 template of `buildSOAPEnvelope`
(pkg/server/server.go:298-303). -/
def soap12Pre : Str :=
  str "<?xml version=\"1.0\" encoding=\"utf-8\"?>\n<soap12:Envelope xmlns:soap12=\"http://www.w3.org/2003/05/soap-envelope\" xmlns:tns=\""

def soap12Mid : Str := str "\">\n  <soap12:Body>\n    <tns:"

def soap12Close : Str := str "</tns:"

def soap12Suf : Str := str ">\n  </soap12:Body>\n</soap12:Envelope>"

/-- Go `Server.buildSOAPEnvelope` (pkg/server/server.go:284-313): the full
envelope template.  `soapVersion` is the server's version string (anything
other than `"1.2"` selects the SOAP 1.1 template, as in the Go `if`);
an empty target namespace falls back to `http://tempuri.org/`. -/
def buildSOAPEnvelope (soapVersion targetNamespace operation : Str)
    (params : List (Str × Str)) : Str :=
  let targetNS := if targetNamespace == [] then str "http://tempuri.org/" else targetNamespace
  let px := paramsXML params
  if soapVersion == str "1.2" then
    soap12Pre ++ targetNS ++ soap12Mid ++ operation ++ ['>']
      ++ px ++ soap12Close ++ operation ++ soap12Suf
  else
    soap11Pre ++ targetNS ++ soap11Mid ++ operation ++ ['>']
      ++ px ++ soap11Close ++ operation ++ soap11Suf

/-- Split a string at the first occurrence of `pat`: `some (before, after)`
with the occurrence itself removed, `none` when `pat` does not occur. -/
def splitFirst (pat : Str) : Str → Option (Str × Str)
  | [] => if List.isPrefixOf pat ([] : Str) then some ([], []) else none
  | c :: cs =>
    if List.isPrefixOf pat (c :: cs) then some ([], (c :: cs).drop pat.length)
    else (splitFirst pat cs).map (fun p => (c :: p.1, p.2))

/-- The inner XML of the element spelled `<tag>…</tag>`. -/
def innerOf (tag : Str) (s : Str) : Option Str :=
  match splitFirst ('<' :: tag ++ ['>']) s with
  | none => none
  | some (_, rest) =>
    match splitFirst (str "</" ++ tag ++ ['>']) rest with
    | none => none
    | some (inner, _) => some inner

/-- The `innerxml` of the `Body` element, as `xml.Unmarshal` extracts it for
the struct tag `xml:"Body"` in `parseSOAPResponse`.  Go matches the element by
local name under any prefix; the model covers the spellings occurring in this
repository's envelopes (`soap:`, `soap12:`, `env:` or no prefix). -/
def bodyInner (s : Str) : Option Str :=
  (innerOf (str "soap:Body") s) <|> (innerOf (str "soap12:Body") s)
    <|> (innerOf (str "env:Body") s) <|> (innerOf (str "Body") s)

/-- Go `Server.parseSOAPResponse` (pkg/server/server.go:316-342): unmarshal the
envelope, trim the Body's inner XML, and — when nonempty — return the map
`{"xml": bodyContent, "raw": bodyContent}`.  No `Fault` detection exists; the
function never produces an error for a well-formed envelope (the unmarshal
error branch for malformed XML is outside the model). -/
def parseSOAPResponse (xmlData : Str) : List (Str × Str) :=
  let bodyContent := trimSpace ((bodyInner xmlData).getD [])
  if bodyContent = [] then []
  else [(str "xml", bodyContent), (str "raw", bodyContent)]

/-- Does `pat` occur as a contiguous substring of `s`? -/
def occursIn (pat : Str) : Str → Bool
  | [] => List.isPrefixOf pat ([] : Str)
  | c :: cs => List.isPrefixOf pat (c :: cs) || occursIn pat cs

/-- The two SOAP protocol versions. -/
inductive SoapVersion where
  | v11
  | v12
deriving DecidableEq

/-- The two `xml.Unmarshal` calls of the generated `Client.Call`
(pkg/generator/client_wssecurity.go:133-144), abstracted as success
predicates on the response bytes: `ok11` is the unmarshal into the
`SOAPEnvelope` (SOAP 1.1) shape, `ok12` the one into `SOAP12Envelope`. -/
structure UnmarshalModel where
  ok11 : Str → Bool
  ok12 : Str → Bool

/-- The response-decoding path of the generated `Client.Call`
(pkg/generator/client_wssecurity.go:133-147): first `xml.Unmarshal` into the
SOAP 1.1 envelope shape; only if that errors, `xml.Unmarshal` into the
SOAP 1.2 shape; error when both fail.  `hint` is `c.SOAPVersion`, which the
Go code never consults here.  Returns the ordered list of envelope shapes
attempted and whether decoding succeeded. -/
def callDecodeAttempts (m : UnmarshalModel) (_hint : SoapVersion) (respData : Str) :
    List SoapVersion × Bool :=
  if m.ok11 respData then ([SoapVersion.v11], true)
  else if m.ok12 respData then ([SoapVersion.v11, SoapVersion.v12], true)
  else ([SoapVersion.v11, SoapVersion.v12], false)

/-! ## WS-Security header builder (pkg/security/wssecurity.go)

`crypto/sha1` and `encoding/base64` are embedded as executable pure functions
on byte lists (`List Nat`, each byte < 256).  Randomness (`crypto/rand` for
the nonce) and the wall clock (`time.Now`) are modelled as explicit
parameters. -/

def twoPow32 : Nat := 4294967296

/-- A 32-bit left rotation on `Nat` (Go `bits.RotateLeft32` as used by SHA-1). -/
def rotl32 (x k : Nat) : Nat :=
  ((x <<< k) % twoPow32) ||| (x >>> (32 - k))

/-- Big-endian 4-byte split of a 32-bit word. -/
def word32ToBytes (w : Nat) : List Nat :=
  [(w >>> 24) % 256, (w >>> 16) % 256, (w >>> 8) % 256, w % 256]

/-- Big-endian 32-bit word from 4 bytes. -/
def bytesToWord32 (b0 b1 b2 b3 : Nat) : Nat :=
  ((b0 <<< 24) + (b1 <<< 16) + (b2 <<< 8) + b3) % twoPow32

/-- Group a byte list into big-endian 32-bit words (length divisible by 4). -/
def toWords32 : List Nat → List Nat
  | b0 :: b1 :: b2 :: b3 :: rest => bytesToWord32 b0 b1 b2 b3 :: toWords32 rest
  | _ => []

/-- Append `n` copies of `x`. -/
def padZeros (n : Nat) : List Nat := List.replicate n 0

/-- SHA-1 message padding: append `0x80`, zero bytes to 56 mod 64, then the
bit length as a big-endian 64-bit integer. -/
def sha1Pad (msg : List Nat) : List Nat :=
  let ml := msg.length * 8
  let padLen := (55 + 64 - msg.length % 64) % 64
  msg ++ [128] ++ padZeros padLen
      ++ [(ml >>> 56) % 256, (ml >>> 48) % 256, (ml >>> 40) % 256, (ml >>> 32) % 256,
          (ml >>> 24) % 256, (ml >>> 16) % 256, (ml >>> 8) % 256, ml % 256]

/-- SHA-1 round function and constant for round `t`. -/
def sha1F (t b c d : Nat) : Nat :=
  if t < 20 then (b &&& c) ||| ((b ^^^ (twoPow32 - 1)) &&& d)
  else if t < 40 then b ^^^ c ^^^ d
  else if t < 60 then (b &&& c) ||| (b &&& d) ||| (c &&& d)
  else b ^^^ c ^^^ d

def sha1K (t : Nat) : Nat :=
  if t < 20 then 1518500249
  else if t < 40 then 1859775393
  else if t < 60 then 2400959708
  else 3395469782

/-- Build the 80-word schedule from the 16 block words. -/
def sha1Schedule (block : List Nat) : List Nat :=
  let step : List Nat → Nat → List Nat := fun acc _ =>
    let n := acc.length
    let w3 := acc.getD (n - 3) 0
    let w8 := acc.getD (n - 8) 0
    let w14 := acc.getD (n - 14) 0
    let w16 := acc.getD (n - 16) 0
    acc ++ [rotl32 (((w3 ^^^ w8) ^^^ w14) ^^^ w16) 1]
  (List.range 64).foldl step block

/-- One SHA-1 compression round. -/
def sha1Round (st : Nat × Nat × Nat × Nat × Nat) (tw : Nat × Nat) :
    Nat × Nat × Nat × Nat × Nat :=
  let a := st.1
  let b := st.2.1
  let c := st.2.2.1
  let d := st.2.2.2.1
  let e := st.2.2.2.2
  let t := tw.1
  let w := tw.2
  let temp := (rotl32 a 5 + sha1F t b c d + e + sha1K t + w) % twoPow32
  (temp, a, rotl32 b 30, c, d)

/-- Process one 64-byte block, updating the five hash words. -/
def sha1Block (h : Nat × Nat × Nat × Nat × Nat) (block : List Nat) :
    Nat × Nat × Nat × Nat × Nat :=
  let ws := sha1Schedule (toWords32 block)
  let st := ((List.range 80).zip ws).foldl sha1Round h
  (((h.1 + st.1) % twoPow32),
   ((h.2.1 + st.2.1) % twoPow32),
   ((h.2.2.1 + st.2.2.1) % twoPow32),
   ((h.2.2.2.1 + st.2.2.2.1) % twoPow32),
   ((h.2.2.2.2 + st.2.2.2.2) % twoPow32))

/-- Take `n` blocks of 64 bytes each. -/
def chunksN : Nat → List Nat → List (List Nat)
  | 0, _ => []
  | Nat.succ k, l => l.take 64 :: chunksN k (l.drop 64)

/-- Split a padded message (whose length is a multiple of 64) into 64-byte
blocks. -/
def chunks64 (l : List Nat) : List (List Nat) := chunksN (l.length / 64) l

/-- Go `crypto/sha1`: the SHA-1 digest (20 bytes) of a byte list. -/
def sha1 (msg : List Nat) : List Nat :=
  let init : Nat × Nat × Nat × Nat × Nat :=
    (1732584193, 4023233417, 2562383102, 271733878, 3285377520)
  let fin := (chunks64 (sha1Pad msg)).foldl sha1Block init
  word32ToBytes fin.1 ++ word32ToBytes fin.2.1 ++ word32ToBytes fin.2.2.1
    ++ word32ToBytes fin.2.2.2.1 ++ word32ToBytes fin.2.2.2.2

/-- The standard base64 alphabet of `encoding/base64.StdEncoding`. -/
def base64Table : Str :=
  str "ABCDEFGHIJKLMNOPQRSTUVWXYZabcdefghijklmnopqrstuvwxyz0123456789+/"

def b64char (n : Nat) : Char := base64Table.getD n 'A'

/-- Go `encoding/base64.StdEncoding.EncodeToString`. -/
def base64Encode : List Nat → Str
  | [] => []
  | [b1] => [b64char (b1 / 4), b64char ((b1 % 4) * 16), '=', '=']
  | [b1, b2] => [b64char (b1 / 4), b64char ((b1 % 4) * 16 + b2 / 16),
                 b64char ((b2 % 16) * 4), '=']
  | b1 :: b2 :: b3 :: rest =>
    [b64char (b1 / 4), b64char ((b1 % 4) * 16 + b2 / 16),
     b64char ((b2 % 16) * 4 + b3 / 64), b64char (b3 % 64)] ++ base64Encode rest

/-- UTF-8 bytes of a string; faithful for the ASCII strings in scope. -/
def strBytes (s : Str) : List Nat := s.map Char.toNat

/-- Go `security.WSSecurity` (pkg/security/wssecurity.go:12-16). -/
structure WSSecurity where
  username : Str
  password : Str
  useDigest : Bool

/-- Go `security.Timestamp` (wssecurity.go:28-32).  The two instants are kept as
seconds; their RFC3339 rendering is not modelled (it does not affect which
fields the header carries). -/
structure Timestamp where
  created : Nat
  expires : Nat
deriving DecidableEq

/-- Go `security.Password` (wssecurity.go:44-48): `Type` attribute and character
data. -/
structure Password where
  passwordType : Str
  value : Str
deriving DecidableEq

/-- Go `security.Nonce` (wssecurity.go:51-55). -/
structure Nonce where
  encodingType : Str
  value : Str
deriving DecidableEq

/-- Go `security.UsernameToken` (wssecurity.go:35-41). -/
structure UsernameToken where
  username : Str
  password : Option Password
  nonce : Option Nonce
  created : Str
deriving DecidableEq

/-- Go `security.SecurityHeader` (wssecurity.go:19-25). -/
structure SecurityHeader where
  wsse : Str
  wsu : Str
  timestamp : Option Timestamp
  usernameToken : Option UsernameToken

def wsseNS : Str :=
  str "http://docs.oasis-open.org/wss/2004/01/oasis-200401-wss-wssecurity-secext-1.0.xsd"

def wsuNS : Str :=
  str "http://docs.oasis-open.org/wss/2004/01/oasis-200401-wss-wssecurity-utility-1.0.xsd"

def passwordDigestURI : Str :=
  str "http://docs.oasis-open.org/wss/2004/01/oasis-200401-wss-username-token-profile-1.0#PasswordDigest"

def passwordTextURI : Str :=
  str "http://docs.oasis-open.org/wss/2004/01/oasis-200401-wss-username-token-profile-1.0#PasswordText"

def base64BinaryURI : Str :=
  str "http://docs.oasis-open.org/wss/2004/01/oasis-200401-wss-soap-message-security-1.0#Base64Binary"

/-- Go `createTimestamp` (wssecurity.go:80-88): `Created = now`,
`Expires = now + 5 minutes`. -/
def createTimestamp (now : Nat) : Timestamp :=
  { created := now, expires := now + 300 }

/-- Go `createPasswordDigest` (wssecurity.go:133-139):
`Base64(SHA1(nonce ++ created ++ password))`.  A pure function of the three
arguments: any two computations over the same nonce, created string and
password yield the identical digest. -/
def createPasswordDigest (nonce : List Nat) (created password : Str) : Str :=
  base64Encode (sha1 (nonce ++ strBytes created ++ strBytes password))

/-- Go `createUsernameToken` (wssecurity.go:91-122).  `nonce` stands for the 16
random bytes of `generateNonce`, `created` for the RFC3339 rendering of
`time.Now` — both produced inside the Go function and taken as parameters
here. -/
def createUsernameToken (ws : WSSecurity) (nonce : List Nat) (created : Str) :
    UsernameToken :=
  if ws.useDigest then
    { username := ws.username
      password := some { passwordType := passwordDigestURI
                         value := createPasswordDigest nonce created ws.password }
      nonce := some { encodingType := base64BinaryURI, value := base64Encode nonce }
      created := created }
  else
    { username := ws.username
      password := some { passwordType := passwordTextURI, value := ws.password }
      nonce := none
      created := [] }

/-- Go `NewSecurityHeader` (wssecurity.go:58-77): `nil` in, `nil` out; otherwise
a header with the two namespace attributes, always a timestamp, and a
username token exactly when the username is nonempty. -/
def NewSecurityHeader (ws : Option WSSecurity) (now : Nat) (nonce : List Nat)
    (created : Str) : Option SecurityHeader :=
  match ws with
  | none => none
  | some w =>
    some { wsse := wsseNS
           wsu := wsuNS
           timestamp := some (createTimestamp now)
           usernameToken :=
             if w.username ≠ [] then some (createUsernameToken w nonce created)
             else none }

/-- A SOAP 1.1 fault response (pkg/server/server.go has no handling that
distinguishes it from any other Body content). -/
def faultEnvelope11 : Str :=
  str "<?xml version=\"1.0\"?><soap:Envelope xmlns:soap=\"http://schemas.xmlsoap.org/soap/envelope/\"><soap:Body><soap:Fault><faultcode>soap:Server</faultcode><faultstring>boom</faultstring></soap:Fault></soap:Body></soap:Envelope>"

def faultInner11 : Str :=
  str "<soap:Fault><faultcode>soap:Server</faultcode><faultstring>boom</faultstring></soap:Fault>"

/-- A SOAP 1.2 fault response (`env:Fault`). -/
def faultEnvelope12 : Str :=
  str "<?xml version=\"1.0\"?><env:Envelope xmlns:env=\"http://www.w3.org/2003/05/soap-envelope\"><env:Body><env:Fault><env:Code><env:Value>env:Receiver</env:Value></env:Code></env:Fault></env:Body></env:Envelope>"

def faultInner12 : Str :=
  str "<env:Fault><env:Code><env:Value>env:Receiver</env:Value></env:Code></env:Fault>"

/-! ## Helper lemmas -/

theorem isPrefixOf_append_self (l s : Str) : List.isPrefixOf l (l ++ s) = true := by
  induction l with
  | nil => simp [List.isPrefixOf]
  | cons c cs ih => simp [List.isPrefixOf, ih]

/-- SHA-1 known-answer test: the embedded `sha1` matches the standard digest
of `"abc"` (a9993e364706816aba3e25717850c26c9cd0d89d), and `base64Encode`
matches `encoding/base64` on it. -/
theorem sha1KnownAnswer :
    sha1 (strBytes (str "abc"))
      = [169, 153, 62, 54, 71, 6, 129, 106, 186, 62, 37, 113, 120, 80, 194, 108, 156, 208, 216, 157]
    ∧ base64Encode (sha1 (strBytes (str "abc"))) = str "qZk+NkcGgWq6PiVxeFDCbJzQ2J0=" := by
  constructor <;> decide

theorem toNat_ofNat_lt {n : Nat} (h : n < 55296) : (Char.ofNat n).toNat = n := by
  have hv : n.isValidChar := Or.inl h
  unfold Char.ofNat
  rw [dif_pos hv]
  rfl

theorem toUpper_cases (c : Char) :
    Char.toUpper c = c
    ∨ (65 ≤ (Char.toUpper c).toNat ∧ (Char.toUpper c).toNat ≤ 90) := by
  by_cases h : c.toNat ≥ 97 ∧ c.toNat ≤ 122
  · right
    have he : Char.toUpper c = Char.ofNat (c.toNat - 32) := by
      simp only [Char.toUpper]
      rw [if_pos h]
    rw [he, toNat_ofNat_lt (by omega)]
    omega
  · left
    simp only [Char.toUpper]
    rw [if_neg h]

theorem toUpper_toUpper (c : Char) :
    Char.toUpper (Char.toUpper c) = Char.toUpper c := by
  rcases toUpper_cases c with h | ⟨h1, h2⟩
  · rw [h]
    exact h
  · generalize hu : Char.toUpper c = u at h1 h2
    have hno : ¬(u.toNat ≥ 97 ∧ u.toNat ≤ 122) := by omega
    simp only [Char.toUpper]
    rw [if_neg hno]

/-- A character that survives into a normalized identifier: not a separator,
not a colon, not whitespace. -/
def charOK (c : Char) : Prop :=
  isSepChar c = false ∧ (c != ':') = true ∧ isGoSpace c = false

theorem charOK_of_range {u : Char} (h1 : 65 ≤ u.toNat) (h2 : u.toNat ≤ 90) :
    charOK u := by
  have hb : ∀ b : Char, b.toNat < 65 ∨ 90 < b.toNat → (u == b) = false := by
    intro b hbn
    apply beq_eq_false_iff_ne.mpr
    intro he
    rw [he] at h1 h2
    omega
  have h95 : (u == '_') = false := hb '_' (by decide)
  have h45 : (u == '-') = false := hb '-' (by decide)
  have h46 : (u == '.') = false := hb '.' (by decide)
  have h32 : (u == ' ') = false := hb ' ' (by decide)
  have h58 : (u == ':') = false := hb ':' (by decide)
  have h09 : (u == '\t') = false := hb '\t' (by decide)
  have h10 : (u == '\n') = false := hb '\n' (by decide)
  have h11 : (u == '\x0b') = false := hb '\x0b' (by decide)
  have h12 : (u == '\x0c') = false := hb '\x0c' (by decide)
  have h13 : (u == '\r') = false := hb '\r' (by decide)
  exact ⟨by simp [isSepChar, h95, h45, h46, h32],
         by simp [bne, h58],
         by simp [isGoSpace, h32, h09, h10, h11, h12, h13]⟩

theorem charOK_toUpper {c : Char} (h : charOK c) : charOK (Char.toUpper c) := by
  rcases toUpper_cases c with he | ⟨h1, h2⟩
  · rw [he]
    exact h
  · exact charOK_of_range h1 h2

theorem mem_fieldsAux_sound (s : Str) : ∀ (acc w : Str) (c : Char),
    w ∈ fieldsAux acc s → c ∈ w → c ∈ acc ∨ (c ∈ s ∧ isSepChar c = false) := by
  induction s with
  | nil =>
    intro acc w c hw hc
    by_cases ha : acc = []
    · simp [fieldsAux, ha] at hw
    · simp [fieldsAux, ha] at hw
      subst hw
      exact Or.inl (List.mem_reverse.mp hc)
  | cons x xs ih =>
    intro acc w c hw hc
    by_cases hx : isSepChar x = true
    · by_cases ha : acc = []
      · simp [fieldsAux, hx, ha] at hw
        rcases ih [] w c hw hc with h0 | ⟨hin, hns⟩
        · cases h0
        · exact Or.inr ⟨List.mem_cons_of_mem _ hin, hns⟩
      · simp [fieldsAux, hx, ha] at hw
        rcases hw with hw | hw
        · subst hw
          exact Or.inl (List.mem_reverse.mp hc)
        · rcases ih [] w c hw hc with h0 | ⟨hin, hns⟩
          · cases h0
          · exact Or.inr ⟨List.mem_cons_of_mem _ hin, hns⟩
    · have hx' : isSepChar x = false := by simpa using hx
      simp [fieldsAux, hx'] at hw
      rcases ih (x :: acc) w c hw hc with hacc | ⟨hin, hns⟩
      · rcases List.mem_cons.mp hacc with rfl | hacc2
        · exact Or.inr ⟨List.mem_cons_self _ _, hx'⟩
        · exact Or.inl hacc2
      · exact Or.inr ⟨List.mem_cons_of_mem _ hin, hns⟩

theorem fieldsAux_all_nonsep (s : Str) : ∀ acc : Str,
    (∀ c ∈ s, isSepChar c = false) → (acc ≠ [] ∨ s ≠ []) →
    fieldsAux acc s = [acc.reverse ++ s] := by
  induction s with
  | nil =>
    intro acc _ hne
    have ha : acc ≠ [] := by
      rcases hne with h | h
      · exact h
      · exact absurd rfl h
    simp [fieldsAux, ha]
  | cons x xs ih =>
    intro acc hall hne
    have hx : isSepChar x = false := hall x (List.mem_cons_self _ _)
    simp only [fieldsAux, hx, Bool.false_eq_true, if_false]
    rw [ih (x :: acc) (fun c hc => hall c (List.mem_cons_of_mem _ hc))
        (Or.inl (by simp))]
    simp

theorem fieldsFunc_single {s : Str} (hne : s ≠ [])
    (hall : ∀ c ∈ s, isSepChar c = false) : fieldsFunc s = [s] := by
  unfold fieldsFunc
  rw [fieldsAux_all_nonsep s [] hall (Or.inr hne)]
  simp

theorem dropWhile_eq_self_of {p : Char → Bool} {s : Str}
    (h : ∀ c ∈ s, p c = false) : s.dropWhile p = s := by
  cases s with
  | nil => rfl
  | cons c cs => simp [List.dropWhile_cons, h c (List.mem_cons_self _ _)]

theorem takeWhile_eq_self_of {p : Char → Bool} {s : Str}
    (h : ∀ c ∈ s, p c = true) : s.takeWhile p = s := by
  induction s with
  | nil => rfl
  | cons c cs ih =>
    simp [List.takeWhile_cons, h c (List.mem_cons_self _ _),
      ih (fun d hd => h d (List.mem_cons_of_mem _ hd))]

theorem mem_takeWhile_both {p : Char → Bool} {s : Str} {c : Char} :
    c ∈ s.takeWhile p → c ∈ s ∧ p c = true := by
  induction s with
  | nil => intro h; cases h
  | cons x xs ih =>
    intro h
    rw [List.takeWhile_cons] at h
    by_cases hx : p x = true
    · rw [if_pos hx] at h
      rcases List.mem_cons.mp h with rfl | h2
      · exact ⟨List.mem_cons_self _ _, hx⟩
      · obtain ⟨hin, hp⟩ := ih h2
        exact ⟨List.mem_cons_of_mem _ hin, hp⟩
    · rw [if_neg hx] at h
      cases h

theorem trimSpace_eq_self_of {s : Str}
    (h : ∀ c ∈ s, isGoSpace c = false) : trimSpace s = s := by
  unfold trimSpace
  rw [dropWhile_eq_self_of h,
    dropWhile_eq_self_of (fun c hc => h c (List.mem_reverse.mp hc))]
  exact List.reverse_reverse s

theorem mem_of_mem_trimSpace {s : Str} {c : Char} (h : c ∈ trimSpace s) :
    c ∈ s := by
  unfold trimSpace at h
  rw [List.mem_reverse] at h
  have h1 := (List.dropWhile_sublist _).subset h
  rw [List.mem_reverse] at h1
  exact (List.dropWhile_sublist _).subset h1

theorem localName_eq_self_of {s : Str}
    (h : ∀ c ∈ s, (c != ':') = true) : localName s = s := by
  unfold localName
  rw [takeWhile_eq_self_of (fun c hc => h c (List.mem_reverse.mp hc))]
  exact List.reverse_reverse s

theorem mem_localName_no_colon {s : Str} {c : Char} (h : c ∈ localName s) :
    c ∈ s ∧ (c != ':') = true := by
  unfold localName at h
  rw [List.mem_reverse] at h
  obtain ⟨h1, h2⟩ := mem_takeWhile_both h
  exact ⟨List.mem_reverse.mp h1, h2⟩

theorem upperFirst_flatten_map (ws : List Str) :
    upperFirst ((ws.map upperFirst).flatten) = (ws.map upperFirst).flatten := by
  induction ws with
  | nil => rfl
  | cons w rest ih =>
    cases w with
    | nil => simpa [upperFirst] using ih
    | cons c cs =>
      simp [upperFirst, List.cons_append, toUpper_toUpper]

theorem goToPascalCase_of_nil {s : Str} (h : trimSpace s = []) :
    goToPascalCase s = [] := by
  simp [goToPascalCase, h]

theorem goToPascalCase_of_ne {s : Str} (h : trimSpace s ≠ []) :
    goToPascalCase s
      = ((fieldsFunc (localName (trimSpace s))).map upperFirst).flatten := by
  simp [goToPascalCase, h]

theorem goToPascalCase_chars {s : Str}
    (hws : ∀ c ∈ s, isGoSpace c = true → c = ' ')
    {c : Char} (hc : c ∈ goToPascalCase s) : charOK c := by
  by_cases ht : trimSpace s = []
  · rw [goToPascalCase_of_nil ht] at hc
    cases hc
  · rw [goToPascalCase_of_ne ht] at hc
    obtain ⟨w2, hw2, hcw2⟩ := List.mem_flatten.mp hc
    obtain ⟨w, hw, rfl⟩ := List.mem_map.mp hw2
    have hwchars : ∀ d ∈ w, charOK d := by
      intro d hd
      rcases mem_fieldsAux_sound (localName (trimSpace s)) [] w d hw hd with
        h0 | ⟨hin, hns⟩
      · cases h0
      · obtain ⟨hint, hncolon⟩ := mem_localName_no_colon hin
        have hins : d ∈ s := mem_of_mem_trimSpace hint
        have hnsp : d ≠ ' ' := by
          simp [isSepChar] at hns
          exact hns.2
        have hgsp : isGoSpace d = false := by
          by_cases hg : isGoSpace d = true
          · exact absurd (hws d hins hg) hnsp
          · simpa using hg
        exact ⟨hns, hncolon, hgsp⟩
    cases w with
    | nil => cases hcw2
    | cons d ds =>
      rcases List.mem_cons.mp hcw2 with rfl | htail
      · exact charOK_toUpper (hwchars d (List.mem_cons_self _ _))
      · exact hwchars c (List.mem_cons_of_mem _ htail)

/-! ## Claim theorems -/

/-- C6: `convertToModel` builds the `Definitions` literal without ever
assigning `Types` (pkg/parser/parser.go:56-139), so for every raw WSDL model
— whatever its parsed `types` section holds — the resulting IR has an empty
complex-type list and nothing of `raw.types` survives into the output of
`Parse`. -/
theorem convertToModel_types_empty (raw : RawDefinitions) :
    (convertToModel raw).types = [] := rfl

/-- C7: in digest mode `createUsernameToken` emits the password digest
`base64(SHA1(nonce ++ created ++ password))` under the `PasswordDigest` type
URI, and in plaintext mode the password verbatim under the `PasswordText`
type URI (pkg/security/wssecurity.go:91-139).  Both are pure functions of
(nonce, created, password), so any two computations over the same inputs
yield the bit-for-bit identical digest. -/
theorem createUsernameToken_password_spec (ws : WSSecurity) (nonce : List Nat)
    (created : Str) :
    (createUsernameToken { ws with useDigest := true } nonce created).password
      = some { passwordType := passwordDigestURI
               value := base64Encode (sha1 (nonce ++ strBytes created ++ strBytes ws.password)) }
    ∧ (createUsernameToken { ws with useDigest := false } nonce created).password
      = some { passwordType := passwordTextURI, value := ws.password } := by
  constructor <;> simp [createUsernameToken, createPasswordDigest]

/-- C9: `NewSecurityHeader` on a non-nil credential always carries a
timestamp with `Created = now` and `Expires = now + 5` minutes, and carries a
`UsernameToken` exactly when the username is nonempty — in particular, an
empty username yields a header with a timestamp but no token
(pkg/security/wssecurity.go:57-88). -/
theorem NewSecurityHeader_token_iff (w : WSSecurity) (now : Nat)
    (nonce : List Nat) (created : Str) :
    ∃ hdr, NewSecurityHeader (some w) now nonce created = some hdr
      ∧ hdr.timestamp = some { created := now, expires := now + 300 }
      ∧ (hdr.usernameToken = none ↔ w.username = []) := by
  refine ⟨_, rfl, rfl, ?_⟩
  by_cases h : w.username = [] <;> simp [h]

/-- C2: `getFieldType` wraps the base type as an array first whenever
`maxOccurs` is `"unbounded"` or a numeral greater than 1, and because the
result then starts with `[]`, neither the `minOccurs == "0"` pointer wrap nor
the nillable pointer wrap applies — the result is exactly the array of the
mapped base type (part_007:61-83).  In particular a `string` element with
`minOccurs = "0"` and `maxOccurs = "unbounded"` projects to `[]string`, never
`*string`. -/
theorem getFieldType_array_wrap_first (elem : Element)
    (h : elem.maxOccurs = str "unbounded"
        ∨ ∃ n, strToNat? elem.maxOccurs = some n ∧ 1 < n) :
    getFieldType elem = str "[]" ++ mapXSDTypeToGo elem.typeRef := by
  have hcond : (elem.maxOccurs == str "unbounded"
      || (elem.maxOccurs != ([] : Str) && elem.maxOccurs != str "1")) = true := by
    rcases h with h | ⟨n, hn, h1⟩
    · simp [h]
    · have hne : elem.maxOccurs ≠ [] := by
        intro he
        rw [he] at hn
        simp [strToNat?] at hn
      have hne1 : elem.maxOccurs ≠ str "1" := by
        intro he
        rw [he] at hn
        have : n = 1 := by
          have h2 : strToNat? (str "1") = some 1 := by decide
          rw [h2] at hn
          exact (Option.some_inj.mp hn).symm
        omega
      simp [hne, hne1]
  have hpre : List.isPrefixOf (str "[]") (str "[]" ++ mapXSDTypeToGo elem.typeRef) = true :=
    isPrefixOf_append_self _ _
  simp [getFieldType, hcond, hpre]

/-- Witness for C2 at the spec's own example:
`Project("string", minOccurs="0", maxOccurs="unbounded")` is array-of-string
(`[]string`), not optional-string. -/
theorem getFieldType_array_wrap_first_witness :
    getFieldType { name := str "parameters", typeRef := str "string",
                   minOccurs := str "0", maxOccurs := str "unbounded", nillable := false }
        = str "[]" ++ mapXSDTypeToGo (str "string")
    ∧ getFieldType { name := str "parameters", typeRef := str "string",
                     minOccurs := str "0", maxOccurs := str "unbounded", nillable := false }
        = str "[]string" :=
  ⟨getFieldType_array_wrap_first _ (Or.inl rfl),
   (getFieldType_array_wrap_first _ (Or.inl rfl)).trans (by decide)⟩

/-- C5 (counterexample): `byte` is in the fixed 15-name primitive table, yet
the OpenAPI mapping's table has no entry for it, so `xsdTypeToOpenAPISchema`
resolves it through the unknown-type fallback (to a plain string schema)
rather than through the table — contradicting the claim that every target
resolves every table primitive through its table. -/
theorem openAPITypeMap_misses_byte :
    str "byte" ∈ primitiveTable
    ∧ openAPITypeMap.lookup (str "byte") = none
    ∧ xsdTypeToOpenAPISchema (str "byte") = { schemaType := str "string" } := by
  refine ⟨by decide, by decide, by decide⟩

/-- C5 (amended): every local name of the 15-name primitive table hits the Go
mapping's table (never the custom-type fallback of `mapXSDTypeToGo`), while
the OpenAPI mapping's table is hit exactly for the 12 names other than
`byte`, `base64Binary` and `hexBinary` — those three fall through to the
unknown-type fallback. -/
theorem primitiveTable_resolution (s : Str) (h : localName s ∈ primitiveTable) :
    goTypeMap.lookup (localName s) = some (mapXSDTypeToGo s)
    ∧ ((openAPITypeMap.lookup (localName s)).isSome = true
        ↔ ¬(localName s = str "byte" ∨ localName s = str "base64Binary"
            ∨ localName s = str "hexBinary")) := by
  simp only [primitiveTable, List.mem_cons, List.not_mem_nil, or_false] at h
  rcases h with h|h|h|h|h|h|h|h|h|h|h|h|h|h|h <;> simp only [mapXSDTypeToGo, h] <;> decide

/-- Witness for C5 at the primitive `string`. -/
theorem primitiveTable_resolution_witness :
    goTypeMap.lookup (localName (str "string")) = some (mapXSDTypeToGo (str "string"))
    ∧ ((openAPITypeMap.lookup (localName (str "string"))).isSome = true
        ↔ ¬(localName (str "string") = str "byte"
            ∨ localName (str "string") = str "base64Binary"
            ∨ localName (str "string") = str "hexBinary")) :=
  primitiveTable_resolution (str "string") (by decide)

/-- C8 (counterexample): with the hint set to SOAP 1.2 the generated `Call`
still attempts the SOAP 1.1 envelope shape first — the first attempted shape
is not the hinted one (pkg/generator/client_wssecurity.go:133-147). -/
theorem callDecodeAttempts_hint_ignored :
    ((callDecodeAttempts { ok11 := fun _ => true, ok12 := fun _ => true }
        SoapVersion.v12 []).1.head?) ≠ some SoapVersion.v12 := by decide

/-- C8 (amended): for every response and every hint, the generated `Call`
attempts the SOAP 1.1 envelope shape first and falls back to the SOAP 1.2
shape only if that unmarshal fails; the hinted version is never consulted
when decoding. -/
theorem callDecodeAttempts_v11_first (m : UnmarshalModel) (hint : SoapVersion)
    (resp : Str) :
    (callDecodeAttempts m hint resp).1.head? = some SoapVersion.v11
    ∧ (callDecodeAttempts m hint resp)
        = callDecodeAttempts m SoapVersion.v11 resp := by
  unfold callDecodeAttempts
  by_cases h1 : m.ok11 resp = true <;> by_cases h2 : m.ok12 resp = true <;>
    simp [h1, h2]

/-- C1 (code evaluated at the failing input): both the SOAP 1.1 and the
SOAP 1.2 fault responses contain a `Fault`/`env:Fault` element inside `Body`,
yet `parseSOAPResponse` returns each as the ordinary success map
`{"xml": raw, "raw": raw}` holding the fault's raw XML — the nil-error path
of the Go function; no `SoapFault` (or any error) is ever produced, and the
generated `Client.Call` likewise contains no fault inspection. -/
theorem parseSOAPResponse_fault_as_success :
    (occursIn (str "<soap:Fault>") faultEnvelope11 = true
      ∧ parseSOAPResponse faultEnvelope11
          = [(str "xml", faultInner11), (str "raw", faultInner11)])
    ∧ (occursIn (str "<env:Fault>") faultEnvelope12 = true
      ∧ parseSOAPResponse faultEnvelope12
          = [(str "xml", faultInner12), (str "raw", faultInner12)]) := by
  refine ⟨⟨by decide, by decide⟩, ⟨by decide, by decide⟩⟩

/-- C3 (code evaluated at the failing input): encoding the payload
`{"a": "1"}` for operation `Add` under SOAP 1.1 and decoding the result with
the same version returns the raw-XML map `{"xml": "<tns:Add><a>1</a></tns:Add>",
"raw": …}` — not the payload; the key `a` is absent from the decoded result, so
`Decode(Encode(v, payload), v) ≠ payload`. -/
theorem soapRoundTrip_returns_raw_xml :
    parseSOAPResponse (buildSOAPEnvelope (str "1.1") (str "http://tempuri.org/")
        (str "Add") [(str "a", str "1")])
      = [(str "xml", str "<tns:Add><a>1</a></tns:Add>"),
         (str "raw", str "<tns:Add><a>1</a></tns:Add>")]
    ∧ (parseSOAPResponse (buildSOAPEnvelope (str "1.1") (str "http://tempuri.org/")
        (str "Add") [(str "a", str "1")])).lookup (str "a") = none := by
  refine ⟨by decide, by decide⟩

/-- Every `(k, v)` entry of the parameter map contributes its verbatim
`<k>v</k>` chunk to `paramsXML` (pkg/server/server.go:287-289). -/
theorem paramsXML_chunk (params : List (Str × Str)) (k v : Str)
    (h : (k, v) ∈ params) :
    ∃ l r, paramsXML params
      = l ++ ('<' :: k ++ '>' :: v ++ str "</" ++ k ++ ['>']) ++ r := by
  induction params with
  | nil => cases h
  | cons p rest ih =>
    rcases List.mem_cons.mp h with h | h
    · exact ⟨[], paramsXML rest, by rw [← h]; simp [paramsXML]⟩
    · obtain ⟨l, r, hlr⟩ := ih h
      exact ⟨('<' :: p.1 ++ '>' :: p.2 ++ str "</" ++ p.1 ++ ['>']) ++ l, r,
        by simp [paramsXML, hlr]⟩

/-- C10: `buildSOAPEnvelope` interpolates every key and value of the
parameter map verbatim into the Body — for both SOAP versions the produced
envelope contains the unescaped chunk `<k>v</k>` as a contiguous substring,
whatever XML metacharacters `k` or `v` contain (pkg/server/server.go:284-313
applies no XML escaping). -/
theorem buildSOAPEnvelope_verbatim (ver ns op k v : Str)
    (params : List (Str × Str)) (h : (k, v) ∈ params) :
    ∃ l r, buildSOAPEnvelope ver ns op params
      = l ++ ('<' :: k ++ '>' :: v ++ str "</" ++ k ++ ['>']) ++ r := by
  obtain ⟨l, r, hlr⟩ := paramsXML_chunk params k v h
  unfold buildSOAPEnvelope
  by_cases hv : (ver == str "1.2") = true
  · rw [if_pos hv]
    exact ⟨soap12Pre ++ (if ns == ([] : Str) then str "http://tempuri.org/" else ns)
        ++ soap12Mid ++ op ++ ['>'] ++ l,
      r ++ soap12Close ++ op ++ soap12Suf, by rw [hlr]; simp [List.append_assoc]⟩
  · rw [if_neg hv]
    exact ⟨soap11Pre ++ (if ns == ([] : Str) then str "http://tempuri.org/" else ns)
        ++ soap11Mid ++ op ++ ['>'] ++ l,
      r ++ soap11Close ++ op ++ soap11Suf, by rw [hlr]; simp [List.append_assoc]⟩

/-- Witness for C10: the value `1<2` — containing the XML metacharacter `<`
— is embedded unescaped inside the Body of the produced envelope. -/
theorem buildSOAPEnvelope_verbatim_witness :
    ∃ l r, buildSOAPEnvelope (str "1.1") (str "http://tempuri.org/") (str "Add")
        [(str "a", str "1<2")]
      = l ++ ('<' :: str "a" ++ '>' :: str "1<2" ++ str "</" ++ str "a" ++ ['>']) ++ r :=
  buildSOAPEnvelope_verbatim (str "1.1") (str "http://tempuri.org/") (str "Add")
    (str "a") (str "1<2") [(str "a", str "1<2")] (by decide)

/-- C4 (counterexample): the TypeScript emitter's `toPascalCase`
(pkg/typescript/generator.go:326-344) is not idempotent on its exported form:
`hello_world ↦ HelloWorld`, but renormalizing gives `Helloworld` since the
word tail is lower-cased — so the claimed idempotence fails for that emitter
at the explicit input `hello_world`. -/
theorem tsToPascalCase_not_idempotent :
    tsToPascalCase (tsToPascalCase (str "hello_world"))
      ≠ tsToPascalCase (str "hello_world") := by decide

/-- C4 (amended): the Go emitter's `toPascalCase`
(pkg/generator/generator.go:247-270) is idempotent on its exported form for
every input containing no whitespace other than the space character:
renormalizing an already-normalized name is a no-op.  (Inputs with embedded
exotic whitespace such as tab escape the idempotence because `TrimSpace`
trims them at the edges while `FieldsFunc` does not split on them; and the
TypeScript emitter's `toPascalCase` is not idempotent at all, see the
counterexample.) -/
theorem goToPascalCase_idem (s : Str)
    (hws : ∀ c ∈ s, isGoSpace c = true → c = ' ') :
    goToPascalCase (goToPascalCase s) = goToPascalCase s := by
  by_cases ht : trimSpace s = []
  · rw [goToPascalCase_of_nil ht]
    decide
  · have hy := goToPascalCase_of_ne ht
    by_cases hynil : goToPascalCase s = []
    · rw [hynil]
      decide
    · have hchars : ∀ c ∈ goToPascalCase s, charOK c := fun c hc =>
        goToPascalCase_chars hws hc
      have htrim : trimSpace (goToPascalCase s) = goToPascalCase s :=
        trimSpace_eq_self_of (fun c hc => (hchars c hc).2.2)
      have hln : localName (goToPascalCase s) = goToPascalCase s :=
        localName_eq_self_of (fun c hc => (hchars c hc).2.1)
      have hfield : fieldsFunc (goToPascalCase s) = [goToPascalCase s] :=
        fieldsFunc_single hynil (fun c hc => (hchars c hc).1)
      rw [goToPascalCase_of_ne (by rw [htrim]; exact hynil)]
      rw [htrim, hln, hfield]
      simp only [List.map_cons, List.map_nil, List.flatten_cons,
        List.flatten_nil, List.append_nil]
      rw [hy]
      exact upperFirst_flatten_map _

/-- Witness for C4 at `hello_world`: the Go normalizer fixes `HelloWorld`. -/
theorem goToPascalCase_idem_witness :
    goToPascalCase (goToPascalCase (str "hello_world"))
      = goToPascalCase (str "hello_world") :=
  goToPascalCase_idem (str "hello_world") (by decide)

end Wsdl2Api
